import Mathlib

/-!
Shallow embedding of the connector runtime core of this repository
(`pycti/connector/opencti_connector_helper.py`): connector state
serialization (`set_state` / `get_state`), the heartbeat reconciliation
iteration (`PingAlive.ping`), the stream consumer loop (`ListenStream.run`),
the queue consumer message handling (`ListenQueue._process_message`,
`ListenQueue._data_handler`), the bundle splitter
(`split_stix2_bundle` and its closure helpers) and `check_max_tlp`.

Python runtime values are modelled by `PyVal`.  A Python string holding
JSON text is modelled by its decoding behaviour: `PyVal.pstr v` is a
string whose content is valid JSON decoding to `v` (this is what
`json.dumps v` produces, and `json.loads` inverts it), while
`PyVal.gstr s` is a string whose content `s` is not valid JSON.
-/

namespace Pycti

/-- Model of a Python runtime value as used by the connector helper:
`None`, booleans, integers, plain strings, JSON-text strings (valid:
`pstr`, carrying the value the text decodes to; invalid: `gstr`,
carrying the raw text), and dictionaries (association lists, insertion
ordered). -/
inductive PyVal where
  | none
  | bool (b : Bool)
  | int (n : Int)
  | str (s : String)
  | pstr (v : PyVal)
  | gstr (s : String)
  | dict (l : List (String × PyVal))
deriving Repr

mutual

/-- Python `==` on `PyVal` (dictionaries compared entrywise in order;
the embedded code only ever compares dictionaries built in matching
order, so ordered comparison is faithful there). -/
def pyBeq : PyVal → PyVal → Bool
  | PyVal.none, PyVal.none => true
  | PyVal.bool a, PyVal.bool b => a == b
  | PyVal.int a, PyVal.int b => a == b
  | PyVal.str a, PyVal.str b => a == b
  | PyVal.pstr a, PyVal.pstr b => pyBeq a b
  | PyVal.gstr a, PyVal.gstr b => a == b
  | PyVal.dict l, PyVal.dict m => pyBeqDict l m
  | _, _ => false

/-- Entrywise Python `==` on dictionary entry lists. -/
def pyBeqDict : List (String × PyVal) → List (String × PyVal) → Bool
  | [], [] => true
  | (k, v) :: l, (k', v') :: m => k == k' && pyBeq v v' && pyBeqDict l m
  | _, _ => false

end

/-- Model of `json.dumps`: serializing a value yields a string whose
content is valid JSON decoding back to that value. -/
def json_dumps (v : PyVal) : PyVal := PyVal.pstr v

/-- Model of `json.loads` applied to a Python value: a valid JSON text
decodes to its value, an invalid text raises `JSONDecodeError`; a plain
string is modelled as non-JSON content, a non-string input raises
`TypeError` (neither case is exercised by the embedded code paths). -/
def json_loads : PyVal → Except String PyVal
  | PyVal.pstr v => Except.ok v
  | PyVal.gstr _ => Except.error "JSONDecodeError"
  | PyVal.str _ => Except.error "JSONDecodeError"
  | _ => Except.error "TypeError"

/-- Python truthiness for `PyVal` (`if x:`): `None`, `0`, empty strings
and empty dicts are falsy; a `json.dumps` output is never empty. -/
def pyTruthy : PyVal → Bool
  | PyVal.none => false
  | PyVal.bool b => b
  | PyVal.int n => n != 0
  | PyVal.str s => s != ""
  | PyVal.pstr _ => true
  | PyVal.gstr s => s != ""
  | PyVal.dict [] => false
  | PyVal.dict (_ :: _) => true

/-- Model of `len(s) > 0` for the connector-state JSON text returned by
the ping endpoint (a string or `None`): a `json.dumps` output is never
empty; other shapes are not exercised by the embedded code paths. -/
def jsonTextNonempty : PyVal → Bool
  | PyVal.pstr _ => true
  | PyVal.gstr s => s != ""
  | PyVal.str s => s != ""
  | _ => false

/-- `OpenCTIConnectorHelper.set_state`: stores `json.dumps(state)` as the
new value of the `connector_state` attribute. -/
def set_state (state : PyVal) : PyVal := json_dumps state

/-- Whether a `PyVal` is a dictionary (`isinstance(state, Dict)`). -/
def PyVal.isDict : PyVal → Bool
  | PyVal.dict _ => true
  | _ => false

/-- `OpenCTIConnectorHelper.get_state`: if the stored `connector_state`
is truthy, `json.loads` it; return the result when it is a non-empty
dict, otherwise `None`; any decode error is swallowed by the bare
`except` and yields `None` (`get_state` never raises). -/
def get_state (connector_state : PyVal) : PyVal :=
  if pyTruthy connector_state then
    match json_loads connector_state with
    | Except.ok state =>
        if state.isDict && pyTruthy state then state else PyVal.none
    | Except.error _ => PyVal.none
  else PyVal.none

/-- One iteration of the `PingAlive.ping` loop body, given the stored
`connector_state` text and the `connector_state` field of the ping
result (`None` or a JSON text).  Returns the new stored
`connector_state` and the new `in_error` flag: a decode failure of the
remote text is caught by the `except` (state unchanged, `in_error`
set); on divergence the raw remote value is passed to `set_state`. -/
def ping_iteration (connector_state : PyVal) (result_connector_state : PyVal) :
    PyVal × Bool :=
  let initial_state := get_state connector_state
  let remote_attempt : Except String PyVal :=
    if !pyBeq result_connector_state PyVal.none &&
        jsonTextNonempty result_connector_state then
      json_loads result_connector_state
    else Except.ok PyVal.none
  match remote_attempt with
  | Except.error _ => (connector_state, true)
  | Except.ok remote_state =>
      if !pyBeq initial_state remote_state then
        (set_state result_connector_state, false)
      else (connector_state, false)

/-- Python `d[k]` lookup on an association list with string keys (first
match wins; indexes are built so that the first match is the most
recent insertion). -/
def pyLookup (k : String) : List (String × α) → Option α
  | [] => Option.none
  | (k', v) :: rest => if k' = k then some v else pyLookup k rest

/-- Python dict subscript `d[k]`: `KeyError` when the key is absent. -/
def pySubscript (d : List (String × α)) (k : String) : Except String α :=
  match pyLookup k d with
  | some v => Except.ok v
  | Option.none => Except.error ("KeyError: " ++ k)

/-- A decoded STIX object as far as the splitter inspects it: mandatory
`id` and `type`, and the optional reference fields (`none` models the
key being absent from the underlying Python dict; subscripting an
absent key raises `KeyError`). -/
structure StixObject where
  id : String
  type : String
  object_refs : Option (List String) := Option.none
  source_ref : Option String := Option.none
  target_ref : Option String := Option.none
  created_by_ref : Option String := Option.none
  object_marking_refs : Option (List String) := Option.none
deriving DecidableEq, Repr

/-- Python subscript of an optional STIX field: `KeyError` when the key
is absent. -/
def pyField (v : Option α) (k : String) : Except String α :=
  match v with
  | some x => Except.ok x
  | Option.none => Except.error ("KeyError: " ++ k)

/-- The `cache_index` of `split_stix2_bundle`: every object indexed by
`id` (`self.cache_index[item["id"]] = item`; a later insertion wins, so
entries are pushed in front and `pyLookup` takes the first match). -/
def buildIndex (objects : List StixObject) : List (String × StixObject) :=
  objects.foldl (fun m o => (o.id, o) :: m) []

/-- Value stored in the dict returned by `stix2_get_embedded_objects`:
either the marking-definition list or the optional creator object. -/
inductive EmbVal where
  | refs (l : List StixObject)
  | created (o : Option StixObject)
deriving DecidableEq, Repr

/-- `OpenCTIConnectorHelper.stix2_get_embedded_objects`: collect the
resolvable `object_marking_refs` and the resolvable `created_by_ref` of
an item, returning the dict with keys `"object_marking_refs"` and
`"created_by_ref"` (unresolvable references are skipped by the
membership tests). -/
def stix2_get_embedded_objects (idx : List (String × StixObject))
    (item : StixObject) : List (String × EmbVal) :=
  let object_marking_refs :=
    match item.object_marking_refs with
    | some l =>
        l.foldl (fun acc object_marking_ref =>
          match pyLookup object_marking_ref idx with
          | some o => acc ++ [o]
          | Option.none => acc) []
    | Option.none => []
  let created_by_ref :=
    match item.created_by_ref with
    | some r => pyLookup r idx
    | Option.none => Option.none
  [("object_marking_refs", EmbVal.refs object_marking_refs),
   ("created_by_ref", EmbVal.created created_by_ref)]

/-- `OpenCTIConnectorHelper.stix2_get_entity_objects`: the entity itself,
then its resolvable `created_by_ref`, then its marking definitions
(looked up in the embedded-objects dict under the correct keys). -/
def stix2_get_entity_objects (idx : List (String × StixObject))
    (entity : StixObject) : Except String (List StixObject) := do
  let items := [entity]
  let embedded_objects := stix2_get_embedded_objects idx entity
  let cb ← pySubscript embedded_objects "created_by_ref"
  let items := match cb with
    | EmbVal.created (some o) => items ++ [o]
    | _ => items
  let mr ← pySubscript embedded_objects "object_marking_refs"
  let items := match mr with
    | EmbVal.refs l => if 0 < l.length then items ++ l else items
    | _ => items
  pure items

/-- `OpenCTIConnectorHelper.stix2_get_relationship_objects`: the
relationship itself, its resolvable endpoints, then its embedded
objects — read from the embedded-objects dict under the key
`"created_by"`, which the dict does not contain (its keys are
`"object_marking_refs"` and `"created_by_ref"`), so this subscript
raises `KeyError`. -/
def stix2_get_relationship_objects (idx : List (String × StixObject))
    (relationship : StixObject) : Except String (List StixObject) := do
  let items := [relationship]
  let src ← pyField relationship.source_ref "source_ref"
  let items := match pyLookup src idx with
    | some o => items ++ [o]
    | Option.none => items
  let tgt ← pyField relationship.target_ref "target_ref"
  let items := match pyLookup tgt idx with
    | some o => items ++ [o]
    | Option.none => items
  let embedded_objects := stix2_get_embedded_objects idx relationship
  let cb ← pySubscript embedded_objects "created_by"
  let items := match cb with
    | EmbVal.created (some o) => items ++ [o]
    | _ => items
  let mr ← pySubscript embedded_objects "object_marking_refs"
  let items := match mr with
    | EmbVal.refs l => if 0 < l.length then items ++ l else items
    | _ => items
  pure items

/-- `OpenCTIConnectorHelper.stix2_get_report_objects`: the report, then
each object named by its `object_refs` looked up in the index by plain
subscript (`KeyError` on a dangling reference), then — iterating over
that snapshot, since the Python `for` loop iterates the list object
captured before the first reassignment of `items` — for every
relationship among them its relationship closure, and for every other
item its entity closure, appended in order. -/
def stix2_get_report_objects (idx : List (String × StixObject))
    (report : StixObject) : Except String (List StixObject) := do
  let object_refs ← pyField report.object_refs "object_refs"
  let items ← object_refs.foldlM (fun acc object_ref => do
      let o ← pySubscript idx object_ref
      pure (acc ++ [o])) [report]
  let snapshot := items
  let items ← snapshot.foldlM (fun acc item =>
      if item.type == "relationship" then do
        let more ← stix2_get_relationship_objects idx item
        pure (acc ++ more)
      else do
        let more ← stix2_get_entity_objects idx item
        pure (acc ++ more)) items
  pure items

/-- `OpenCTIConnectorHelper.stix2_deduplicate_objects`: keep the first
occurrence of every `id`, preserving encounter order. -/
def stix2_deduplicate_objects (items : List StixObject) : List StixObject :=
  (items.foldl
    (fun (st : List String × List StixObject) item =>
      if item.id ∈ st.1 then st else (st.1 ++ [item.id], st.2 ++ [item]))
    ([], [])).2

/-- Splitter scratch state: the `cache_added` id list and the emitted
sub-bundles (each sub-bundle modelled by its object list; the
`stix2_create_bundle` envelope adds only a fresh `bundle--<uuid>`
wrapper around these objects). -/
abbrev SplitState := List String × List (List StixObject)

/-- Emit one sub-bundle: append every object id to `cache_added` and the
object list to the output. -/
def addBundle (s : SplitState) (items_to_send : List StixObject) : SplitState :=
  (s.1 ++ items_to_send.map (fun o => o.id), s.2 ++ [items_to_send])

/-- Report pass of `split_stix2_bundle`: one sub-bundle per object of
type `report`, in source order. -/
def reportPass (idx : List (String × StixObject)) (objects : List StixObject)
    (s : SplitState) : Except String SplitState :=
  objects.foldlM (fun s item =>
    if item.type == "report" then do
      let objs ← stix2_get_report_objects idx item
      pure (addBundle s (stix2_deduplicate_objects objs))
    else pure s) s

/-- Relationship pass of `split_stix2_bundle`: one sub-bundle per object
of type `relationship` whose id is not yet in `cache_added`, in source
order. -/
def relationshipPass (idx : List (String × StixObject))
    (objects : List StixObject) (s : SplitState) : Except String SplitState :=
  objects.foldlM (fun s item =>
    if item.type == "relationship" && !(decide (item.id ∈ s.1)) then do
      let objs ← stix2_get_relationship_objects idx item
      pure (addBundle s (stix2_deduplicate_objects objs))
    else pure s) s

/-- Remainder pass of `split_stix2_bundle`: one sub-bundle per object
that is not a `relationship` and whose id is not yet in `cache_added`,
in source order. -/
def entityPass (idx : List (String × StixObject)) (objects : List StixObject)
    (s : SplitState) : Except String SplitState :=
  objects.foldlM (fun s item =>
    if item.type != "relationship" && !(decide (item.id ∈ s.1)) then do
      let objs ← stix2_get_entity_objects idx item
      pure (addBundle s (stix2_deduplicate_objects objs))
    else pure s) s

/-- `OpenCTIConnectorHelper.split_stix2_bundle` on a decoded bundle
(modelled by its object list): index every object by id, then run the
report pass, the relationship pass and the remainder pass, returning
the emitted sub-bundles in that order. -/
def split_stix2_bundle (objects : List StixObject) :
    Except String (List (List StixObject)) := do
  let idx := buildIndex objects
  let s1 ← reportPass idx objects ([], [])
  let s2 ← relationshipPass idx objects s1
  let s3 ← entityPass idx objects s2
  pure s3.2

/-- A server-sent event as `ListenStream.run` sees it: an optional
identifier and an event-type tag. -/
structure SSEMsg where
  id : Option String
  event : String
deriving DecidableEq, Repr

/-- Python `state[k] = x` on the connector state: replace the value of
an existing key in place or append the new key; `TypeError` when the
value is not a dict (as when `get_state` returned `None`). -/
def pyDictAssign (v : PyVal) (k : String) (x : PyVal) : Except String PyVal :=
  match v with
  | PyVal.dict l =>
      if l.any (fun p => p.1 = k) then
        Except.ok (PyVal.dict (l.map (fun p => if p.1 = k then (k, x) else p)))
      else Except.ok (PyVal.dict (l ++ [(k, x)]))
  | _ => Except.error "TypeError"

/-- One event of the `ListenStream.run` consumption loop, acting on the
stored `connector_state`: `heartbeat` and `connected` events are
skipped; a `sync` event carrying an id checkpoints
`connectorLastEventId` without invoking the callback; any other event
invokes the callback (returned in the second component) and then
checkpoints when the event carries an id. -/
def listen_stream_event (connector_state : PyVal) (msg : SSEMsg) :
    Except String (PyVal × List SSEMsg) :=
  if msg.event == "heartbeat" || msg.event == "connected" then
    Except.ok (connector_state, [])
  else if msg.event == "sync" then
    match msg.id with
    | some i => do
        let state := get_state connector_state
        let state ← pyDictAssign state "connectorLastEventId" (PyVal.str i)
        Except.ok (set_state state, [])
    | Option.none => Except.ok (connector_state, [])
  else
    match msg.id with
    | some i => do
        let state := get_state connector_state
        let state ← pyDictAssign state "connectorLastEventId" (PyVal.str i)
        Except.ok (set_state state, [msg])
    | Option.none => Except.ok (connector_state, [msg])

/-- The `ListenStream.run` consumption loop over a finite event
sequence, starting from an intermediate state and callback log:
threads the stored `connector_state` through `listen_stream_event` and
accumulates the events delivered to the user callback in order. -/
def listen_stream_consume (start : PyVal × List SSEMsg) (msgs : List SSEMsg) :
    Except String (PyVal × List SSEMsg) :=
  msgs.foldlM (fun acc msg => do
    let r ← listen_stream_event acc.1 msg
    pure (r.1, acc.2 ++ r.2)) start

/-- Running the `ListenStream.run` consumption loop from a stored
`connector_state` with an empty callback log. -/
def listen_stream_run (connector_state : PyVal) (msgs : List SSEMsg) :
    Except String (PyVal × List SSEMsg) :=
  listen_stream_consume (connector_state, []) msgs

/-- An observable step of `ListenQueue._process_message`: the broker
acknowledgment and the dispatch of the decoded payload to the worker
thread. -/
inductive QueueStep where
  | ack (delivery_tag : Nat)
  | spawnWorker (json_data : PyVal)
deriving Repr

/-- `ListenQueue._process_message` up to the worker dispatch:
`json.loads(body)` first, then `channel.basic_ack`, then the worker
thread is started on the decoded payload.  Returns the steps performed
in order and the uncaught exception, if any: a decode failure raises
before any acknowledgment. -/
def process_message (delivery_tag : Nat) (body : PyVal) :
    List QueueStep × Option String :=
  match json_loads body with
  | Except.ok json_data =>
      ([QueueStep.ack delivery_tag, QueueStep.spawnWorker json_data],
       Option.none)
  | Except.error e => ([], some e)

/-- An observable event of `ListenQueue._data_handler`: a Work-Tracking
API call (with whether it succeeded) or a local error log. -/
inductive HandlerEvent where
  | toReceived (work_id : String) (message : String)
  | toProcessed (work_id : String) (message : String) (is_error : Bool)
      (succeeded : Bool)
  | logException (message : String)
  | logError (message : String)
deriving DecidableEq, Repr

/-- `ListenQueue._data_handler` on a decoded message with the given
`work_id`: report received, run the user callback, report processed; a
callback exception is caught, logged and reported with
`is_error = True`; when that error report itself raises
(`report_fails`), the second failure is swallowed and only logged.  The
`to_received` and success-path `to_processed` calls are modelled as
succeeding.  Returns the events in order and whether an exception
propagated out of the handler. -/
def data_handler (callback : PyVal → Except String String)
    (report_fails : Bool) (work_id : String) (event : PyVal) :
    List HandlerEvent × Bool :=
  let pre := [HandlerEvent.toReceived work_id
    "Connector ready to process the operation"]
  match callback event with
  | Except.ok message =>
      (pre ++ [HandlerEvent.toProcessed work_id message false true], false)
  | Except.error e =>
      let caught := pre ++
        [HandlerEvent.logException
          "Error in message processing, reporting error to API"]
      if report_fails then
        (caught ++ [HandlerEvent.toProcessed work_id e true false,
                    HandlerEvent.logError "Failing reporting the processing"],
         false)
      else
        (caught ++ [HandlerEvent.toProcessed work_id e true true], false)

/-- The `allowed_tlps` table of `OpenCTIConnectorHelper.check_max_tlp`. -/
def allowed_tlps : List (String × List String) :=
  [("TLP:RED", ["TLP:WHITE", "TLP:GREEN", "TLP:AMBER", "TLP:RED"]),
   ("TLP:AMBER", ["TLP:WHITE", "TLP:GREEN", "TLP:AMBER"]),
   ("TLP:GREEN", ["TLP:WHITE", "TLP:GREEN"]),
   ("TLP:WHITE", ["TLP:WHITE"])]

/-- `OpenCTIConnectorHelper.check_max_tlp`: `tlp in allowed_tlps[max_tlp]`
(the subscript raises `KeyError` on an unknown `max_tlp`). -/
def check_max_tlp (tlp : String) (max_tlp : String) : Except String Bool := do
  let allowed ← pySubscript allowed_tlps max_tlp
  pure (decide (tlp ∈ allowed))

/-- The four TLP levels, ordered from least to most restrictive. -/
def tlpLevels : List String :=
  ["TLP:WHITE", "TLP:GREEN", "TLP:AMBER", "TLP:RED"]

/-- Rank of a TLP level in the containment order
WHITE ⊂ GREEN ⊂ AMBER ⊂ RED. -/
def tlpRank (tlp : String) : Nat :=
  if tlp = "TLP:WHITE" then 0
  else if tlp = "TLP:GREEN" then 1
  else if tlp = "TLP:AMBER" then 2
  else 3

/-- The concatenated id lists of a sequence of sub-bundles; the
`cache_added` list of the splitter is always exactly this value for the
bundles emitted so far. -/
def bundleIds (bs : List (List StixObject)) : List String :=
  (bs.map (fun b => b.map (fun o => o.id))).flatten

/-- The selection discipline of the remainder pass, scanning the source
objects in order while threading the set `c` of already-emitted ids
(the `cache_added` contents when the pass starts, extended by each
emitted sub-bundle): every non-relationship object whose id is not yet
emitted contributes exactly the next sub-bundle of the segment, headed
by that object, whose ids are then added to the emitted set; every
other object (a relationship, or an already-emitted object) contributes
no sub-bundle. -/
def remainderSegment : List String → List StixObject →
    List (List StixObject) → Prop
  | _, [], bs => bs = []
  | c, o :: t, bs =>
      if o.type != "relationship" && !(decide (o.id ∈ c)) then
        match bs with
        | [] => False
        | b :: rest =>
            b.head? = some o ∧
            remainderSegment (c ++ b.map (fun x => x.id)) t rest
      else remainderSegment c t bs

/- Concrete bundles used to instantiate the claims. -/

/-- Report `R` of the claimed two-sub-bundle scenario: its `object_refs`
name relationship `X` and entity `C`. -/
def reportR : StixObject :=
  ⟨"report--r", "report", some ["relationship--x", "entity--c"],
   Option.none, Option.none, Option.none, Option.none⟩

/-- Relationship `X` with endpoints `A` and `B`. -/
def relX : StixObject :=
  ⟨"relationship--x", "relationship", Option.none, some "entity--a",
   some "entity--b", Option.none, Option.none⟩

/-- Loose relationship `Y` with endpoints `D` and `E`, referenced by
nothing. -/
def relY : StixObject :=
  ⟨"relationship--y", "relationship", Option.none, some "entity--d",
   some "entity--e", Option.none, Option.none⟩

/-- Entity `A`. -/
def entityA : StixObject :=
  ⟨"entity--a", "entity", Option.none, Option.none, Option.none,
   Option.none, Option.none⟩

/-- Entity `B`. -/
def entityB : StixObject :=
  ⟨"entity--b", "entity", Option.none, Option.none, Option.none,
   Option.none, Option.none⟩

/-- Entity `C`. -/
def entityC : StixObject :=
  ⟨"entity--c", "entity", Option.none, Option.none, Option.none,
   Option.none, Option.none⟩

/-- Entity `D`. -/
def entityD : StixObject :=
  ⟨"entity--d", "entity", Option.none, Option.none, Option.none,
   Option.none, Option.none⟩

/-- Entity `E`. -/
def entityE : StixObject :=
  ⟨"entity--e", "entity", Option.none, Option.none, Option.none,
   Option.none, Option.none⟩

/-- The bundle of the claimed two-sub-bundle scenario:
`{R, X, A, B, C, Y, D, E}`. -/
def c2Bundle : List StixObject :=
  [reportR, relX, entityA, entityB, entityC, relY, entityD, entityE]

/-- A report whose `object_refs` name the entity `identity--a`. -/
def reportOne : StixObject :=
  ⟨"report--1", "report", some ["identity--a"], Option.none, Option.none,
   Option.none, Option.none⟩

/-- The entity `identity--a`. -/
def identityA : StixObject :=
  ⟨"identity--a", "identity", Option.none, Option.none, Option.none,
   Option.none, Option.none⟩

/-- An indicator whose `created_by_ref` is `identity--a`. -/
def indicatorB : StixObject :=
  ⟨"indicator--b", "indicator", Option.none, Option.none, Option.none,
   some "identity--a", Option.none⟩

/-- A bundle in which `identity--a` is referenced both by a report and,
as a creator, by a remainder-pass entity. -/
def dupBundle : List StixObject := [reportOne, identityA, indicatorB]

/-- A report with a dangling `object_refs` entry. -/
def reportDangling : StixObject :=
  ⟨"report--e", "report", some ["indicator--missing"], Option.none,
   Option.none, Option.none, Option.none⟩

/-- An indicator whose `created_by_ref` and `object_marking_refs` are
all dangling. -/
def indicatorDangling : StixObject :=
  ⟨"indicator--1", "indicator", Option.none, Option.none, Option.none,
   some "identity--missing", some ["marking--missing"]⟩

/-- A report whose `object_refs` name entity `A` only. -/
def reportG : StixObject :=
  ⟨"report--g", "report", some ["entity--a"], Option.none, Option.none,
   Option.none, Option.none⟩

/-- A relationship-free bundle on which splitting succeeds: report `G`
referencing entity `A`, and loose entity `B`. -/
def okBundle : List StixObject := [reportG, entityA, entityB]

/-- The three stream events of the checkpoint scenario. -/
def msgData1 : SSEMsg := ⟨some "10-0", "data"⟩

/-- The repositioning `sync` event of the checkpoint scenario. -/
def msgSync : SSEMsg := ⟨some "10-0", "sync"⟩

/-- The second `data` event of the checkpoint scenario. -/
def msgData2 : SSEMsg := ⟨some "11-0", "data"⟩

/-- The stored connector state `{connectorLastEventId: "-"}`. -/
def streamState0 : PyVal :=
  set_state (PyVal.dict [("connectorLastEventId", PyVal.str "-")])

end Pycti

deriving instance DecidableEq for Except

namespace Pycti

/-! Theorems. -/

/-- Claim C9 (confirmed): `check_max_tlp("TLP:GREEN", "TLP:AMBER")` is
true, `check_max_tlp("TLP:RED", "TLP:GREEN")` is false, and on the four
TLP levels `check_max_tlp tlp max_tlp` is true exactly when `tlp` is at
or below `max_tlp` in the containment order
WHITE ⊂ GREEN ⊂ AMBER ⊂ RED. -/
theorem c9_check_max_tlp_containment :
    check_max_tlp "TLP:GREEN" "TLP:AMBER" = Except.ok true ∧
    check_max_tlp "TLP:RED" "TLP:GREEN" = Except.ok false ∧
    ∀ t ∈ tlpLevels, ∀ m ∈ tlpLevels,
      check_max_tlp t m = Except.ok (decide (tlpRank t ≤ tlpRank m)) := by
  refine ⟨by decide, by decide, ?_⟩
  decide

/-- Witness for C9: the general containment statement applied at the
concrete pair GREEN ≤ AMBER. -/
theorem c9_check_max_tlp_containment_witness :
    "TLP:GREEN" ∈ tlpLevels ∧ "TLP:AMBER" ∈ tlpLevels ∧
    check_max_tlp "TLP:GREEN" "TLP:AMBER" =
      Except.ok (decide (tlpRank "TLP:GREEN" ≤ tlpRank "TLP:AMBER")) :=
  ⟨by decide, by decide,
   c9_check_max_tlp_containment.2.2 "TLP:GREEN" (by decide)
     "TLP:AMBER" (by decide)⟩

/-- Claim C10 (confirmed): for every non-empty dictionary state,
`set_state` followed by `get_state` returns that state (round trip
through the JSON-string representation); and `get_state` returns `None`
when the stored connector state is absent (`None`), empty or not valid
JSON (`gstr`), or parses to a non-dictionary or to an empty dictionary.
`get_state` is a total function, so it never raises. -/
theorem c10_state_round_trip :
    (∀ l : List (String × PyVal), l ≠ [] →
        get_state (set_state (PyVal.dict l)) = PyVal.dict l) ∧
    get_state PyVal.none = PyVal.none ∧
    (∀ s, get_state (PyVal.gstr s) = PyVal.none) ∧
    (∀ v, v.isDict = false → get_state (PyVal.pstr v) = PyVal.none) ∧
    get_state (PyVal.pstr (PyVal.dict [])) = PyVal.none := by
  refine ⟨?_, rfl, ?_, ?_, rfl⟩
  · intro l hl
    cases l with
    | nil => exact absurd rfl hl
    | cons p t =>
        simp [get_state, set_state, json_dumps, json_loads, pyTruthy,
          PyVal.isDict]
  · intro s
    by_cases h : s = ""
    · simp [get_state, pyTruthy, h]
    · simp [get_state, pyTruthy, json_loads, h]
  · intro v hv
    simp [get_state, pyTruthy, json_loads, hv]

/-- Witness for C10: the round trip and the `None` cases evaluated at
the concrete state `{connectorLastEventId: "-"}` and at a non-dict
JSON value. -/
theorem c10_state_round_trip_witness :
    ([("connectorLastEventId", PyVal.str "-")] ≠
        ([] : List (String × PyVal))) ∧
    get_state (set_state (PyVal.dict [("connectorLastEventId",
        PyVal.str "-")])) =
      PyVal.dict [("connectorLastEventId", PyVal.str "-")] ∧
    (PyVal.str "hello").isDict = false ∧
    get_state (PyVal.pstr (PyVal.str "hello")) = PyVal.none :=
  ⟨by simp, c10_state_round_trip.1 _ (by simp), rfl,
   c10_state_round_trip.2.2.2.1 _ rfl⟩

/-- Claim C4 (code_bug): when the remote connector state differs from
the local snapshot, `PingAlive.ping` passes the raw remote JSON string
to `set_state`, which `json.dumps` it again; the stored state becomes
the serialization of a string, so a subsequent `get_state` returns
`None`, not the remote state value.  Evaluated at local state
`{"a": 1}` and remote state text `{"b": 2}`: after the iteration
`get_state` returns `None`, while the remote state value is the
non-empty dict `{"b": 2}` (which `get_state` would return only from a
singly-encoded text, third conjunct). -/
theorem c4_ping_overwrite_double_encodes :
    (ping_iteration (PyVal.pstr (PyVal.dict [("a", PyVal.int 1)]))
        (PyVal.pstr (PyVal.dict [("b", PyVal.int 2)]))).1 =
      PyVal.pstr (PyVal.pstr (PyVal.dict [("b", PyVal.int 2)])) ∧
    get_state (ping_iteration (PyVal.pstr (PyVal.dict [("a", PyVal.int 1)]))
        (PyVal.pstr (PyVal.dict [("b", PyVal.int 2)]))).1 = PyVal.none ∧
    get_state (PyVal.pstr (PyVal.dict [("b", PyVal.int 2)])) =
      PyVal.dict [("b", PyVal.int 2)] :=
  ⟨rfl, rfl, rfl⟩

/-- Claim C6 (corrected, counterexample): on a body that fails JSON
decoding, `ListenQueue._process_message` raises at `json.loads` before
reaching `channel.basic_ack`; the performed step list is empty, so the
message has not been acknowledged at the moment of the decode
failure. -/
theorem c6_counterexample_no_ack_on_decode_failure :
    process_message 7 (PyVal.gstr "not json") =
      ([], some "JSONDecodeError") := rfl

/-- Claim C6 (amended): acknowledgment happens immediately after a
successful decode and before the worker is spawned; on a decode
failure the handler crashes with no step performed — in particular the
message has not been acknowledged, so the broker may redeliver it. -/
theorem c6_ack_only_after_successful_decode :
    ∀ (delivery_tag : Nat) (body : PyVal),
      (∀ v, json_loads body = Except.ok v →
        process_message delivery_tag body =
          ([QueueStep.ack delivery_tag, QueueStep.spawnWorker v],
           Option.none)) ∧
      (∀ e, json_loads body = Except.error e →
        process_message delivery_tag body = ([], some e)) := by
  intro delivery_tag body
  constructor
  · intro v h
    simp [process_message, h]
  · intro e h
    simp [process_message, h]

/-- Witness for C6 (amended): the two branches evaluated on a decodable
and a non-decodable body. -/
theorem c6_ack_only_after_successful_decode_witness :
    json_loads (PyVal.pstr (PyVal.dict [("internal", PyVal.none)])) =
      Except.ok (PyVal.dict [("internal", PyVal.none)]) ∧
    process_message 7 (PyVal.pstr (PyVal.dict [("internal", PyVal.none)])) =
      ([QueueStep.ack 7,
        QueueStep.spawnWorker (PyVal.dict [("internal", PyVal.none)])],
       Option.none) ∧
    json_loads (PyVal.gstr "oops") = Except.error "JSONDecodeError" ∧
    process_message 7 (PyVal.gstr "oops") =
      ([], some "JSONDecodeError") :=
  ⟨rfl,
   (c6_ack_only_after_successful_decode 7
      (PyVal.pstr (PyVal.dict [("internal", PyVal.none)]))).1 _ rfl,
   rfl,
   (c6_ack_only_after_successful_decode 7 (PyVal.gstr "oops")).2 _ rfl⟩

/-- Claim C7 (confirmed): when the user callback raises,
`ListenQueue._data_handler` reports the failure with
`to_processed(work_id, str(e), True)`, never propagates the exception
out of the handler, and when that failure report itself raises, the
second failure is swallowed and only logged. -/
theorem c7_callback_error_reported_not_raised :
    ∀ (callback : PyVal → Except String String) (report_fails : Bool)
      (work_id : String) (event : PyVal) (e : String),
      callback event = Except.error e →
      (data_handler callback report_fails work_id event).2 = false ∧
      HandlerEvent.toProcessed work_id e true (!report_fails) ∈
        (data_handler callback report_fails work_id event).1 ∧
      (report_fails = true →
        HandlerEvent.logError "Failing reporting the processing" ∈
          (data_handler callback report_fails work_id event).1) := by
  intro callback report_fails work_id event e h
  cases report_fails <;> simp [data_handler, h]

/-- Witness for C7: a callback that raises `"boom"`, with the failure
report succeeding. -/
theorem c7_callback_error_reported_not_raised_witness :
    ((fun _ : PyVal => (Except.error "boom" : Except String String))
        PyVal.none = Except.error "boom") ∧
    (data_handler (fun _ => Except.error "boom") false "work1"
        PyVal.none).2 = false ∧
    HandlerEvent.toProcessed "work1" "boom" true true ∈
      (data_handler (fun _ => Except.error "boom") false "work1"
        PyVal.none).1 :=
  ⟨rfl,
   (c7_callback_error_reported_not_raised (fun _ => Except.error "boom")
      false "work1" PyVal.none "boom" rfl).1,
   by simpa using
     (c7_callback_error_reported_not_raised (fun _ => Except.error "boom")
        false "work1" PyVal.none "boom" rfl).2.1⟩

/-- Claim C2 (code_bug): on the claimed bundle
`{R, X, A, B, C, Y, D, E}`, splitting does not return two sub-bundles:
expanding report `R`'s closure reaches relationship `X`, and
`stix2_get_relationship_objects` subscripts the embedded-objects dict
with the key `"created_by"`, which it does not contain (its keys are
`"object_marking_refs"` and `"created_by_ref"`), so
`split_stix2_bundle` raises `KeyError: created_by`. -/
theorem c2_split_raises_keyerror_created_by :
    split_stix2_bundle c2Bundle = Except.error "KeyError: created_by" := rfl

/-- Claim C3 (corrected, counterexample): a dangling entry in a
report's `object_refs` is not dropped: `stix2_get_report_objects`
subscripts the index without a membership test, so `split_stix2_bundle`
raises a `KeyError` for the missing id. -/
theorem c3_counterexample_dangling_object_ref_raises :
    split_stix2_bundle [reportDangling] =
      Except.error "KeyError: indicator--missing" := rfl

/-- Monadic bind on a successful `Except` computation. -/
@[simp] theorem exceptBind_ok (a : α) (f : α → Except ε β) :
    (Except.ok a >>= f) = f a := rfl

/-- Monadic bind on a failed `Except` computation. -/
@[simp] theorem exceptBind_error (e : ε) (f : α → Except ε β) :
    ((Except.error e : Except ε α) >>= f) = Except.error e := rfl

/-- Skipped protocol events leave the state untouched and invoke no
callback. -/
theorem listen_stream_event_skip (connector_state : PyVal) (m : SSEMsg)
    (h : m.event = "heartbeat" ∨ m.event = "connected") :
    listen_stream_event connector_state m =
      Except.ok (connector_state, []) := by
  rcases h with h | h <;> simp [listen_stream_event, h]

/-- Unfolding one step of the stream consumption loop. -/
theorem listen_stream_consume_cons (start : PyVal × List SSEMsg)
    (msg : SSEMsg) (rest : List SSEMsg) :
    listen_stream_consume start (msg :: rest) =
      (do
        let r ← listen_stream_event start.1 msg
        listen_stream_consume (r.1, start.2 ++ r.2) rest) := by
  cases hp : listen_stream_event start.1 msg <;>
    simp [listen_stream_consume, List.foldlM_cons, hp]

/-- Inserting a `heartbeat` or `connected` event anywhere in the stream
changes neither the stored state nor the sequence of callback
invocations. -/
theorem listen_stream_consume_skip_insensitive (m : SSEMsg)
    (h : m.event = "heartbeat" ∨ m.event = "connected") :
    ∀ (pre post : List SSEMsg) (start : PyVal × List SSEMsg),
      listen_stream_consume start (pre ++ m :: post) =
        listen_stream_consume start (pre ++ post) := by
  intro pre
  induction pre with
  | nil =>
      intro post start
      rw [List.nil_append, List.nil_append, listen_stream_consume_cons,
        listen_stream_event_skip start.1 m h]
      simp
  | cons p pre ih =>
      intro post start
      rw [List.cons_append, List.cons_append, listen_stream_consume_cons,
        listen_stream_consume_cons]
      cases hp : listen_stream_event start.1 p with
      | error e => simp [hp]
      | ok r =>
          simp only [hp, exceptBind_ok]
          exact ih post (r.1, start.2 ++ r.2)

/-- Claim C5 (confirmed): feeding
`[{id:"10-0",event:"data"}, {id:"10-0",event:"sync"},
{id:"11-0",event:"data"}]` from state `{connectorLastEventId:"-"}`
invokes the callback exactly on the two `data` events, never on `sync`,
and leaves `connectorLastEventId` equal to `"11-0"`; inserting a
`heartbeat` or `connected` event anywhere adds no callback invocation
and changes no checkpoint. -/
theorem c5_stream_consumer_checkpoints :
    (listen_stream_run streamState0 [msgData1, msgSync, msgData2] =
      Except.ok
        (set_state (PyVal.dict [("connectorLastEventId", PyVal.str "11-0")]),
         [msgData1, msgData2])) ∧
    get_state
        (set_state (PyVal.dict [("connectorLastEventId", PyVal.str "11-0")])) =
      PyVal.dict [("connectorLastEventId", PyVal.str "11-0")] ∧
    ∀ (m : SSEMsg), (m.event = "heartbeat" ∨ m.event = "connected") →
      ∀ (pre post : List SSEMsg) (start : PyVal × List SSEMsg),
        listen_stream_consume start (pre ++ m :: post) =
          listen_stream_consume start (pre ++ post) := by
  refine ⟨rfl, rfl, ?_⟩
  intro m h pre post start
  exact listen_stream_consume_skip_insensitive m h pre post start

/-- An id is in the concatenated ids of a bundle sequence exactly when
one of the bundles holds an object with that id. -/
theorem mem_bundleIds {a : String} {bs : List (List StixObject)} :
    a ∈ bundleIds bs ↔ ∃ b ∈ bs, ∃ x ∈ b, x.id = a := by
  simp only [bundleIds, List.mem_flatten, List.mem_map]
  constructor
  · rintro ⟨ids, ⟨b, hb, rfl⟩, ha⟩
    rcases List.mem_map.mp ha with ⟨x, hx, rfl⟩
    exact ⟨b, hb, x, hx, rfl⟩
  · rintro ⟨b, hb, x, hx, rfl⟩
    exact ⟨b.map (fun o => o.id), ⟨b, hb, rfl⟩, List.mem_map_of_mem _ hx⟩

/-- `bundleIds` distributes over append. -/
theorem bundleIds_append (bs cs : List (List StixObject)) :
    bundleIds (bs ++ cs) = bundleIds bs ++ bundleIds cs := by
  simp [bundleIds]

/-- A successful lookup in an index built by overwriting insertion
returns one of the inserted objects. -/
theorem pyLookup_foldl_index :
    ∀ (l : List StixObject) (acc : List (String × StixObject)) (k : String)
      (v : StixObject),
      pyLookup k (l.foldl (fun m o => (o.id, o) :: m) acc) = some v →
      v ∈ l ∨ pyLookup k acc = some v := by
  intro l
  induction l with
  | nil => intro acc k v h; exact Or.inr h
  | cons o t ih =>
      intro acc k v h
      rcases ih ((o.id, o) :: acc) k v h with hv | hv
      · exact Or.inl (List.mem_cons_of_mem _ hv)
      · simp only [pyLookup] at hv
        split at hv
        · cases hv; exact Or.inl (List.mem_cons_self _ _)
        · exact Or.inr hv

/-- A successful `cache_index` lookup returns an object of the source
bundle. -/
theorem pyLookup_buildIndex_mem {objects : List StixObject} {k : String}
    {v : StixObject} (h : pyLookup k (buildIndex objects) = some v) :
    v ∈ objects := by
  rcases pyLookup_foldl_index objects [] k v h with hv | hv
  · exact hv
  · simp [pyLookup] at hv

/-- Behaviour of the deduplication fold of `stix2_deduplicate_objects`
from an arbitrary intermediate state: it appends a sublist of the input
whose ids extend the seen-id list without duplicates. -/
theorem dedup_fold_spec :
    ∀ (l : List StixObject) (st : List String × List StixObject),
      ∃ ext,
        l.foldl (fun (st : List String × List StixObject) item =>
            if item.id ∈ st.1 then st
            else (st.1 ++ [item.id], st.2 ++ [item])) st =
          (st.1 ++ ext.map (fun o => o.id), st.2 ++ ext) ∧
        (∀ x ∈ ext, x ∈ l) ∧
        (st.1.Nodup → (st.1 ++ ext.map (fun o => o.id)).Nodup) := by
  intro l
  induction l with
  | nil => intro st; exact ⟨[], by simp, by simp, by simp⟩
  | cons x t ih =>
      intro st
      by_cases hx : x.id ∈ st.1
      · rcases ih st with ⟨ext, heq, hmem, hnd⟩
        refine ⟨ext, ?_, ?_, hnd⟩
        · simpa [hx] using heq
        · exact fun y hy => List.mem_cons_of_mem _ (hmem y hy)
      · rcases ih (st.1 ++ [x.id], st.2 ++ [x]) with ⟨ext, heq, hmem, hnd⟩
        refine ⟨x :: ext, ?_, ?_, ?_⟩
        · simpa [hx, List.append_assoc] using heq
        · intro y hy
          rcases List.mem_cons.mp hy with rfl | hy
          · exact List.mem_cons_self _ _
          · exact List.mem_cons_of_mem _ (hmem y hy)
        · intro hst
          have h1 : (st.1 ++ [x.id]).Nodup := by
            simp [List.nodup_append, hst, hx]
          have := hnd h1
          simpa [List.append_assoc] using this

/-- `stix2_deduplicate_objects` keeps the head of its input in place. -/
theorem dedup_eq_cons (x : StixObject) (l : List StixObject) :
    ∃ rest, stix2_deduplicate_objects (x :: l) = x :: rest ∧
      ∀ y ∈ rest, y ∈ l := by
  rcases dedup_fold_spec l ([x.id], [x]) with ⟨ext, heq, hmem, _⟩
  refine ⟨ext, ?_, hmem⟩
  simp only [stix2_deduplicate_objects, List.foldl_cons]
  rw [if_neg (by simp)]
  rw [show (([] : List String) ++ [x.id], ([] : List StixObject) ++ [x]) =
      ([x.id], [x]) by simp] at *
  rw [heq]
  simp

/-- Every object kept by `stix2_deduplicate_objects` comes from its
input. -/
theorem dedup_sub {l : List StixObject} :
    ∀ x ∈ stix2_deduplicate_objects l, x ∈ l := by
  rcases dedup_fold_spec l ([], []) with ⟨ext, heq, hmem, _⟩
  simp only [stix2_deduplicate_objects, heq, List.nil_append]
  exact hmem

/-- The ids of a deduplicated list are pairwise distinct. -/
theorem dedup_nodup (l : List StixObject) :
    ((stix2_deduplicate_objects l).map (fun o => o.id)).Nodup := by
  rcases dedup_fold_spec l ([], []) with ⟨ext, heq, _, hnd⟩
  simp only [stix2_deduplicate_objects, heq, List.nil_append]
  simpa using hnd (by simp)

/-- A successful Python subscript is a successful lookup. -/
theorem pySubscript_ok {d : List (String × α)} {k : String} {v : α}
    (h : pySubscript d k = Except.ok v) : pyLookup k d = some v := by
  unfold pySubscript at h
  cases hl : pyLookup k d <;> rw [hl] at h
  · cases h
  · cases h; rfl

/-- Subscripting the embedded-objects dict with `"created_by_ref"`
returns the resolved creator reference. -/
theorem embedded_created_by_ref (idx : List (String × StixObject))
    (item : StixObject) :
    pySubscript (stix2_get_embedded_objects idx item) "created_by_ref" =
      Except.ok (EmbVal.created (match item.created_by_ref with
        | some r => pyLookup r idx
        | Option.none => Option.none)) := by
  simp [stix2_get_embedded_objects, pySubscript, pyLookup]

/-- Subscripting the embedded-objects dict with `"object_marking_refs"`
returns the resolved marking definitions. -/
theorem embedded_marking_refs (idx : List (String × StixObject))
    (item : StixObject) :
    pySubscript (stix2_get_embedded_objects idx item) "object_marking_refs" =
      Except.ok (EmbVal.refs (match item.object_marking_refs with
        | some l =>
            l.foldl (fun acc object_marking_ref =>
              match pyLookup object_marking_ref idx with
              | some o => acc ++ [o]
              | Option.none => acc) []
        | Option.none => [])) := by
  simp [stix2_get_embedded_objects, pySubscript, pyLookup]

/-- Subscripting the embedded-objects dict with the key `"created_by"`
always raises: the dict's keys are `"object_marking_refs"` and
`"created_by_ref"`. -/
theorem embedded_created_by_keyerror (idx : List (String × StixObject))
    (item : StixObject) :
    pySubscript (stix2_get_embedded_objects idx item) "created_by" =
      Except.error "KeyError: created_by" := by
  simp [stix2_get_embedded_objects, pySubscript, pyLookup]

/-- Every object accumulated by the marking-definition fold is a
successful index lookup or comes from the accumulator. -/
theorem marking_fold_mem (idx : List (String × StixObject)) :
    ∀ (refs : List String) (acc : List StixObject) (x : StixObject),
      x ∈ refs.foldl (fun acc object_marking_ref =>
          match pyLookup object_marking_ref idx with
          | some o => acc ++ [o]
          | Option.none => acc) acc →
      x ∈ acc ∨ ∃ k, pyLookup k idx = some x := by
  intro refs
  induction refs with
  | nil => intro acc x hx; exact Or.inl hx
  | cons r t ih =>
      intro acc x hx
      simp only [List.foldl_cons] at hx
      cases hr : pyLookup r idx with
      | none =>
          rw [hr] at hx
          exact ih acc x hx
      | some o =>
          rw [hr] at hx
          rcases ih (acc ++ [o]) x hx with hacc | hidx
          · rcases List.mem_append.mp hacc with h | h
            · exact Or.inl h
            · rcases List.mem_singleton.mp h with rfl
              exact Or.inr ⟨r, hr⟩
          · exact Or.inr hidx

/-- The `pure` of the `Except` monad. -/
@[simp] theorem exceptPure_eq (a : α) : (pure a : Except ε α) = Except.ok a :=
  rfl

/-- The marking-definition guard of the closure helpers is redundant:
appending behind a positivity test equals plain appending. -/
theorem if_append_len (items l : List StixObject) :
    (if 0 < l.length then items ++ l else items) = items ++ l := by
  by_cases h : 0 < l.length
  · simp [h]
  · cases l with
    | nil => simp
    | cons a t => simp at h

/-- `stix2_get_entity_objects` always succeeds, its result starts with
the entity itself, and every other member is a successful index
lookup. -/
theorem entity_objects_spec (idx : List (String × StixObject))
    (e : StixObject) :
    ∃ rest, stix2_get_entity_objects idx e = Except.ok (e :: rest) ∧
      ∀ x ∈ rest, ∃ k, pyLookup k idx = some x := by
  have hmark : ∀ ml : List String, ∀ x ∈ ml.foldl
      (fun acc object_marking_ref =>
        match pyLookup object_marking_ref idx with
        | some o => acc ++ [o]
        | Option.none => acc) [],
      ∃ k, pyLookup k idx = some x := by
    intro ml x hx
    rcases marking_fold_mem idx ml [] x hx with h | h
    · simp at h
    · exact h
  cases hcr : e.created_by_ref with
  | none =>
      cases hm : e.object_marking_refs with
      | none =>
          refine ⟨[], ?_, by simp⟩
          simp [stix2_get_entity_objects, embedded_created_by_ref,
            embedded_marking_refs, hcr, hm]
      | some ml =>
          refine ⟨ml.foldl (fun acc object_marking_ref =>
              match pyLookup object_marking_ref idx with
              | some o => acc ++ [o]
              | Option.none => acc) [], ?_, hmark ml⟩
          simp [stix2_get_entity_objects, embedded_created_by_ref,
            embedded_marking_refs, hcr, hm, if_append_len]
  | some r =>
      cases hlk : pyLookup r idx with
      | none =>
          cases hm : e.object_marking_refs with
          | none =>
              refine ⟨[], ?_, by simp⟩
              simp [stix2_get_entity_objects, embedded_created_by_ref,
                embedded_marking_refs, hcr, hlk, hm]
          | some ml =>
              refine ⟨ml.foldl (fun acc object_marking_ref =>
                  match pyLookup object_marking_ref idx with
                  | some o => acc ++ [o]
                  | Option.none => acc) [], ?_, hmark ml⟩
              simp [stix2_get_entity_objects, embedded_created_by_ref,
                embedded_marking_refs, hcr, hlk, hm, if_append_len]
      | some o =>
          cases hm : e.object_marking_refs with
          | none =>
              refine ⟨[o], ?_, ?_⟩
              · simp [stix2_get_entity_objects, embedded_created_by_ref,
                  embedded_marking_refs, hcr, hlk, hm]
              · intro x hx
                rcases List.mem_singleton.mp hx with rfl
                exact ⟨r, hlk⟩
          | some ml =>
              refine ⟨o :: ml.foldl (fun acc object_marking_ref =>
                  match pyLookup object_marking_ref idx with
                  | some o => acc ++ [o]
                  | Option.none => acc) [], ?_, ?_⟩
              · simp [stix2_get_entity_objects, embedded_created_by_ref,
                  embedded_marking_refs, hcr, hlk, hm, if_append_len]
              · intro x hx
                rcases List.mem_cons.mp hx with rfl | hx
                · exact ⟨r, hlk⟩
                · exact hmark ml x hx

/-- `stix2_get_relationship_objects` never succeeds: it either raises a
`KeyError` on an absent endpoint field, or — after both endpoint
lookups — on the mistyped embedded-objects key `"created_by"`. -/
theorem relationship_objects_error (idx : List (String × StixObject))
    (r : StixObject) :
    ∃ e, stix2_get_relationship_objects idx r = Except.error e := by
  cases hs : r.source_ref with
  | none =>
      exact ⟨"KeyError: source_ref",
        by simp [stix2_get_relationship_objects, pyField, hs]⟩
  | some s =>
      cases ht : r.target_ref with
      | none =>
          exact ⟨"KeyError: target_ref",
            by simp [stix2_get_relationship_objects, pyField, hs, ht]⟩
      | some t =>
          exact ⟨"KeyError: created_by",
            by simp [stix2_get_relationship_objects, pyField, hs, ht,
              embedded_created_by_keyerror]⟩

/-- The `object_refs` resolution fold of `stix2_get_report_objects`
extends its accumulator with successful index lookups only (and raises
on any dangling reference). -/
theorem report_refs_fold_spec (idx : List (String × StixObject)) :
    ∀ (refs : List String) (init out : List StixObject),
      refs.foldlM (fun acc object_ref => do
          let o ← pySubscript idx object_ref
          pure (acc ++ [o])) init = Except.ok out →
      ∃ ext, out = init ++ ext ∧ ∀ x ∈ ext, ∃ k, pyLookup k idx = some x := by
  intro refs
  induction refs with
  | nil =>
      intro init out h
      cases h
      exact ⟨[], by simp, by simp⟩
  | cons r t ih =>
      intro init out h
      rw [List.foldlM_cons] at h
      cases hr : pySubscript idx r with
      | error e => rw [hr] at h; cases h
      | ok o =>
          rw [hr] at h
          simp only [exceptBind_ok, exceptPure_eq] at h
          rcases ih (init ++ [o]) out h with ⟨ext, rfl, hmem⟩
          refine ⟨o :: ext, by simp, ?_⟩
          intro x hx
          rcases List.mem_cons.mp hx with rfl | hx
          · exact ⟨r, pySubscript_ok hr⟩
          · exact hmem x hx

/-- The closure-expansion fold of `stix2_get_report_objects` extends its
accumulator with members of the snapshot and index lookups; it
succeeds only when no snapshot member is a relationship. -/
theorem report_snapshot_fold_spec (idx : List (String × StixObject)) :
    ∀ (snapshot : List StixObject) (init out : List StixObject),
      snapshot.foldlM (fun acc item =>
          if item.type == "relationship" then do
            let more ← stix2_get_relationship_objects idx item
            pure (acc ++ more)
          else do
            let more ← stix2_get_entity_objects idx item
            pure (acc ++ more)) init = Except.ok out →
      ∃ ext, out = init ++ ext ∧
        ∀ x ∈ ext, x ∈ snapshot ∨ ∃ k, pyLookup k idx = some x := by
  intro snapshot
  induction snapshot with
  | nil =>
      intro init out h
      cases h
      exact ⟨[], by simp, by simp⟩
  | cons item t ih =>
      intro init out h
      rw [List.foldlM_cons] at h
      by_cases hty : item.type = "relationship"
      · rcases relationship_objects_error idx item with ⟨e, he⟩
        rw [if_pos (by simp [hty])] at h
        rw [he] at h
        simp only [exceptBind_error] at h
        cases h
      · rcases entity_objects_spec idx item with ⟨rest, he, hrest⟩
        rw [if_neg (by simp [hty])] at h
        rw [he] at h
        simp only [exceptBind_ok, exceptPure_eq] at h
        rcases ih (init ++ (item :: rest)) out h with ⟨ext, rfl, hmem⟩
        refine ⟨(item :: rest) ++ ext, by simp, ?_⟩
        intro x hx
        rcases List.mem_append.mp hx with hx | hx
        · rcases List.mem_cons.mp hx with rfl | hx
          · exact Or.inl (List.mem_cons_self _ _)
          · exact Or.inr (hrest x hx)
        · rcases hmem x hx with hx | hx
          · exact Or.inl (List.mem_cons_of_mem _ hx)
          · exact Or.inr hx

/-- A successful `stix2_get_report_objects` starts with the report
itself, and each of its members is the report or a successful index
lookup. -/
theorem report_objects_spec (idx : List (String × StixObject))
    (rep : StixObject) (out : List StixObject)
    (h : stix2_get_report_objects idx rep = Except.ok out) :
    ∃ rest, out = rep :: rest ∧
      ∀ x ∈ out, x = rep ∨ ∃ k, pyLookup k idx = some x := by
  unfold stix2_get_report_objects at h
  cases href : rep.object_refs with
  | none => rw [href] at h; simp [pyField] at h
  | some refs =>
      rw [href] at h
      simp only [pyField, exceptBind_ok] at h
      cases hf : refs.foldlM (fun acc object_ref => do
          let o ← pySubscript idx object_ref
          pure (acc ++ [o])) [rep] with
      | error e => rw [hf] at h; cases h
      | ok base =>
          rw [hf] at h
          simp only [exceptBind_ok] at h
          cases hsf : base.foldlM (fun acc item =>
              if item.type == "relationship" then do
                let more ← stix2_get_relationship_objects idx item
                pure (acc ++ more)
              else do
                let more ← stix2_get_entity_objects idx item
                pure (acc ++ more)) base with
          | error e => rw [hsf] at h; cases h
          | ok final =>
              rw [hsf] at h
              simp only [exceptPure_eq] at h
              cases h
              rcases report_refs_fold_spec idx refs [rep] base hf with
                ⟨ext₁, rfl, hmem₁⟩
              rcases report_snapshot_fold_spec idx ([rep] ++ ext₁)
                  ([rep] ++ ext₁) out hsf with ⟨ext₂, rfl, hmem₂⟩
              refine ⟨ext₁ ++ ext₂, by simp, ?_⟩
              intro x hx
              have hbase : ∀ y, y ∈ [rep] ++ ext₁ →
                  y = rep ∨ ∃ k, pyLookup k idx = some y := by
                intro y hy
                rcases List.mem_append.mp hy with hy | hy
                · exact Or.inl (List.mem_singleton.mp hy)
                · exact Or.inr (hmem₁ y hy)
              rcases List.mem_append.mp hx with hx | hx
              · exact hbase x hx
              · rcases hmem₂ x hx with hx | hx
                · exact hbase x hx
                · exact Or.inr hx

/-- `bundleIds` on a cons. -/
theorem bundleIds_cons (b : List StixObject) (bs : List (List StixObject)) :
    bundleIds (b :: bs) = b.map (fun o => o.id) ++ bundleIds bs := by
  simp [bundleIds]

/-- A successful report pass appends, per report of the processed list
in order, one deduplicated sub-bundle headed by that report, made of
source-bundle objects with pairwise distinct ids, and appends exactly
the emitted ids to `cache_added`. -/
theorem reportPass_spec {objects : List StixObject} :
    ∀ (l : List StixObject) (s s' : SplitState),
      reportPass (buildIndex objects) l s = Except.ok s' →
      (∀ o ∈ l, o ∈ objects) →
      ∃ nbs,
        s'.2 = s.2 ++ nbs ∧
        s'.1 = s.1 ++ bundleIds nbs ∧
        nbs.map List.head? =
          (l.filter (fun o => o.type == "report")).map some ∧
        (∀ b ∈ nbs, (b.map (fun o => o.id)).Nodup) ∧
        (∀ b ∈ nbs, ∀ x ∈ b, x ∈ objects) := by
  intro l
  induction l with
  | nil =>
      intro s s' h _
      cases h
      exact ⟨[], by simp, by simp [bundleIds], by simp, by simp, by simp⟩
  | cons o t ih =>
      intro s s' h hmem
      rw [show reportPass (buildIndex objects) (o :: t) s =
          ((if o.type == "report" then do
              let objs ← stix2_get_report_objects (buildIndex objects) o
              pure (addBundle s (stix2_deduplicate_objects objs))
            else pure s) >>= fun s1 =>
            reportPass (buildIndex objects) t s1) from rfl] at h
      cases hty : (o.type == "report") with
      | false =>
          rw [hty] at h
          simp only [if_false, Bool.false_eq_true, exceptPure_eq,
            exceptBind_ok] at h
          rcases ih s s' h (fun x hx => hmem x (List.mem_cons_of_mem _ hx))
            with ⟨nbs, h1, h2, h3, h4, h5⟩
          exact ⟨nbs, h1, h2, by simp [hty, h3], h4, h5⟩
      | true =>
          rw [hty] at h
          simp only [if_true] at h
          cases hro : stix2_get_report_objects (buildIndex objects) o with
          | error e =>
              rw [hro] at h
              simp only [exceptBind_error] at h
              cases h
          | ok objs =>
              rw [hro] at h
              simp only [exceptBind_ok, exceptPure_eq] at h
              rcases report_objects_spec _ o objs hro with ⟨rest, rfl, hout⟩
              rcases ih _ s' h
                (fun x hx => hmem x (List.mem_cons_of_mem _ hx))
                with ⟨nbs, h1, h2, h3, h4, h5⟩
              rcases dedup_eq_cons o rest with ⟨rest', hdd, _⟩
              refine ⟨stix2_deduplicate_objects (o :: rest) :: nbs,
                ?_, ?_, ?_, ?_, ?_⟩
              · rw [h1]; simp [addBundle]
              · rw [h2]; simp [addBundle, bundleIds_cons, List.append_assoc]
              · simp [hty, h3, hdd]
              · intro b hb
                rcases List.mem_cons.mp hb with rfl | hb
                · exact dedup_nodup _
                · exact h4 b hb
              · intro b hb x hx
                rcases List.mem_cons.mp hb with rfl | hb
                · rcases hout x (dedup_sub x hx) with rfl | ⟨k, hk⟩
                  · exact hmem x (List.mem_cons_self _ _)
                  · exact pyLookup_buildIndex_mem hk
                · exact h5 b hb x hx

/-- A successful relationship pass leaves the state unchanged, and
every relationship of the processed list was already in `cache_added`
(otherwise `stix2_get_relationship_objects` would have raised). -/
theorem relationshipPass_ok_id {idx : List (String × StixObject)} :
    ∀ (l : List StixObject) (s s' : SplitState),
      relationshipPass idx l s = Except.ok s' →
      s' = s ∧ ∀ o ∈ l, o.type = "relationship" → o.id ∈ s.1 := by
  intro l
  induction l with
  | nil =>
      intro s s' h
      cases h
      exact ⟨rfl, by simp⟩
  | cons o t ih =>
      intro s s' h
      rw [show relationshipPass idx (o :: t) s =
          ((if o.type == "relationship" && !(decide (o.id ∈ s.1)) then do
              let objs ← stix2_get_relationship_objects idx o
              pure (addBundle s (stix2_deduplicate_objects objs))
            else pure s) >>= fun s1 =>
            relationshipPass idx t s1) from rfl] at h
      cases hcond : (o.type == "relationship" && !(decide (o.id ∈ s.1))) with
      | true =>
          rw [hcond] at h
          simp only [if_true] at h
          rcases relationship_objects_error idx o with ⟨e, he⟩
          rw [he] at h
          simp only [exceptBind_error] at h
          cases h
      | false =>
          rw [hcond] at h
          simp only [if_false, Bool.false_eq_true, exceptPure_eq,
            exceptBind_ok] at h
          rcases ih s s' h with ⟨rfl, hcov⟩
          refine ⟨rfl, ?_⟩
          intro x hx hrel
          rcases List.mem_cons.mp hx with rfl | hx
          · rw [Bool.and_eq_false_iff] at hcond
            rcases hcond with hcond | hcond
            · exact absurd hrel (by simpa using hcond)
            · simpa using hcond
          · exact hcov x hx hrel

/-- A successful remainder pass appends one deduplicated sub-bundle per
not-yet-emitted non-relationship object (those roots form a sublist of
the processed list in source order), appends exactly the emitted ids to
`cache_added`, follows the `remainderSegment` selection discipline from
the `cache_added` contents it started with (each root not yet emitted
at its turn, no eligible object skipped), and afterwards every
non-relationship object of the processed list has its id in
`cache_added`. -/
theorem entityPass_spec {objects : List StixObject} :
    ∀ (l : List StixObject) (s s' : SplitState),
      entityPass (buildIndex objects) l s = Except.ok s' →
      (∀ o ∈ l, o ∈ objects) →
      ∃ nbs roots,
        s'.2 = s.2 ++ nbs ∧
        s'.1 = s.1 ++ bundleIds nbs ∧
        List.Sublist roots l ∧
        (∀ r ∈ roots, ¬ r.type = "relationship") ∧
        nbs.map List.head? = roots.map some ∧
        (∀ b ∈ nbs, (b.map (fun o => o.id)).Nodup) ∧
        (∀ b ∈ nbs, ∀ x ∈ b, x ∈ objects) ∧
        (∀ o ∈ l, ¬ o.type = "relationship" → o.id ∈ s'.1) ∧
        remainderSegment s.1 l nbs := by
  intro l
  induction l with
  | nil =>
      intro s s' h _
      cases h
      exact ⟨[], [], by simp, by simp [bundleIds], List.nil_sublist _,
        by simp, by simp, by simp, by simp, by simp,
        by simp [remainderSegment]⟩
  | cons o t ih =>
      intro s s' h hmem
      rw [show entityPass (buildIndex objects) (o :: t) s =
          ((if o.type != "relationship" && !(decide (o.id ∈ s.1)) then do
              let objs ← stix2_get_entity_objects (buildIndex objects) o
              pure (addBundle s (stix2_deduplicate_objects objs))
            else pure s) >>= fun s1 =>
            entityPass (buildIndex objects) t s1) from rfl] at h
      cases hcond : (o.type != "relationship" && !(decide (o.id ∈ s.1))) with
      | false =>
          rw [hcond] at h
          simp only [if_false, Bool.false_eq_true, exceptPure_eq,
            exceptBind_ok] at h
          rcases ih s s' h (fun x hx => hmem x (List.mem_cons_of_mem _ hx))
            with ⟨nbs, roots, h1, h2, h3, h4, h5, h6, h7, h8, h9⟩
          refine ⟨nbs, roots, h1, h2, List.Sublist.cons _ h3, h4, h5, h6, h7,
            ?_, ?_⟩
          · intro x hx hrel
            rcases List.mem_cons.mp hx with rfl | hx
            · rw [Bool.and_eq_false_iff] at hcond
              rcases hcond with hcond | hcond
              · exact absurd hrel (by simpa using hcond)
              · have : x.id ∈ s.1 := by simpa using hcond
                rw [h2]
                exact List.mem_append_left _ this
            · exact h8 x hx hrel
          · simp only [remainderSegment]
            rw [hcond]
            simp only [Bool.false_eq_true, if_false]
            exact h9
      | true =>
          rw [hcond] at h
          simp only [if_true] at h
          rcases entity_objects_spec (buildIndex objects) o with
            ⟨rest, he, hrest⟩
          rw [he] at h
          simp only [exceptBind_ok, exceptPure_eq] at h
          rcases ih _ s' h (fun x hx => hmem x (List.mem_cons_of_mem _ hx))
            with ⟨nbs, roots, h1, h2, h3, h4, h5, h6, h7, h8, h9⟩
          rcases dedup_eq_cons o rest with ⟨rest', hdd, _⟩
          have horel : ¬ o.type = "relationship" := by
            rw [Bool.and_eq_true] at hcond
            simpa using hcond.1
          refine ⟨stix2_deduplicate_objects (o :: rest) :: nbs, o :: roots,
            ?_, ?_, List.Sublist.cons₂ _ h3, ?_, ?_, ?_, ?_, ?_, ?_⟩
          · rw [h1]; simp [addBundle]
          · rw [h2]; simp [addBundle, bundleIds_cons, List.append_assoc]
          · intro r hr
            rcases List.mem_cons.mp hr with rfl | hr
            · exact horel
            · exact h4 r hr
          · simp [hdd, h5]
          · intro b hb
            rcases List.mem_cons.mp hb with rfl | hb
            · exact dedup_nodup _
            · exact h6 b hb
          · intro b hb x hx
            rcases List.mem_cons.mp hb with rfl | hb
            · rcases List.mem_cons.mp (dedup_sub x hx) with rfl | hx
              · exact hmem x (List.mem_cons_self _ _)
              · rcases hrest x hx with ⟨k, hk⟩
                exact pyLookup_buildIndex_mem hk
            · exact h7 b hb x hx
          · intro x hx hrel
            rcases List.mem_cons.mp hx with rfl | hx
            · rw [h2]
              rw [show addBundle s (stix2_deduplicate_objects (x :: rest)) =
                  (s.1 ++ (stix2_deduplicate_objects (x :: rest)).map
                    (fun o => o.id),
                   s.2 ++ [stix2_deduplicate_objects (x :: rest)]) from rfl]
              have : x.id ∈ (stix2_deduplicate_objects (x :: rest)).map
                  (fun o => o.id) := by
                rw [hdd]
                exact List.mem_map_of_mem _ (List.mem_cons_self _ _)
              exact List.mem_append_left _
                (List.mem_append_right _ this)
            · exact h8 x hx hrel
          · simp only [remainderSegment]
            rw [hcond]
            simp only [if_true]
            refine ⟨?_, ?_⟩
            · rw [hdd]; rfl
            · exact h9

/-- The report pass skips every object of a report-free list. -/
theorem reportPass_skip {idx : List (String × StixObject)} :
    ∀ (l : List StixObject) (s : SplitState),
      (∀ o ∈ l, ¬ o.type = "report") →
      reportPass idx l s = Except.ok s := by
  intro l
  induction l with
  | nil => intro s _; rfl
  | cons o t ih =>
      intro s hno
      rw [show reportPass idx (o :: t) s =
          ((if o.type == "report" then do
              let objs ← stix2_get_report_objects idx o
              pure (addBundle s (stix2_deduplicate_objects objs))
            else pure s) >>= fun s1 =>
            reportPass idx t s1) from rfl]
      have hb : (o.type == "report") = false := by
        rw [beq_eq_false_iff_ne]
        exact hno o (List.mem_cons_self _ _)
      rw [hb]
      simp only [if_false, Bool.false_eq_true, exceptPure_eq, exceptBind_ok]
      exact ih s (fun x hx => hno x (List.mem_cons_of_mem _ hx))

/-- The relationship pass skips every object of a relationship-free
list. -/
theorem relationshipPass_skip {idx : List (String × StixObject)} :
    ∀ (l : List StixObject) (s : SplitState),
      (∀ o ∈ l, ¬ o.type = "relationship") →
      relationshipPass idx l s = Except.ok s := by
  intro l
  induction l with
  | nil => intro s _; rfl
  | cons o t ih =>
      intro s hno
      rw [show relationshipPass idx (o :: t) s =
          ((if o.type == "relationship" && !(decide (o.id ∈ s.1)) then do
              let objs ← stix2_get_relationship_objects idx o
              pure (addBundle s (stix2_deduplicate_objects objs))
            else pure s) >>= fun s1 =>
            relationshipPass idx t s1) from rfl]
      have hb : (o.type == "relationship") = false := by
        rw [beq_eq_false_iff_ne]
        exact hno o (List.mem_cons_self _ _)
      rw [hb, Bool.false_and]
      simp only [if_false, Bool.false_eq_true, exceptPure_eq, exceptBind_ok]
      exact ih s (fun x hx => hno x (List.mem_cons_of_mem _ hx))

/-- The remainder pass never raises: its closure helper
`stix2_get_entity_objects` is total. -/
theorem entityPass_total {idx : List (String × StixObject)} :
    ∀ (l : List StixObject) (s : SplitState),
      ∃ s', entityPass idx l s = Except.ok s' := by
  intro l
  induction l with
  | nil => intro s; exact ⟨s, rfl⟩
  | cons o t ih =>
      intro s
      rw [show entityPass idx (o :: t) s =
          ((if o.type != "relationship" && !(decide (o.id ∈ s.1)) then do
              let objs ← stix2_get_entity_objects idx o
              pure (addBundle s (stix2_deduplicate_objects objs))
            else pure s) >>= fun s1 =>
            entityPass idx t s1) from rfl]
      cases hcond : (o.type != "relationship" && !(decide (o.id ∈ s.1))) with
      | false =>
          simp only [if_false, Bool.false_eq_true, exceptPure_eq,
            exceptBind_ok]
          exact ih s
      | true =>
          rcases entity_objects_spec idx o with ⟨rest, he, _⟩
          simp only [if_true, he, exceptBind_ok, exceptPure_eq]
          exact ih _

/-- Claim C3 (amended): dangling embedded references (`created_by_ref`
and `object_marking_refs` entries) and dangling relationship endpoints
are membership-checked and silently dropped, and on a bundle containing
no report and no relationship objects `split_stix2_bundle` never
raises, whatever dangling references its objects carry; but a dangling
entry in a report's `object_refs` raises a `KeyError` (and any bundle
whose splitting reaches a relationship closure raises
`KeyError: created_by`). -/
theorem c3_amended_split_tolerates_dangling_embedded :
    ∀ objects : List StixObject,
      (∀ o ∈ objects, ¬ o.type = "report" ∧ ¬ o.type = "relationship") →
      ∃ bs, split_stix2_bundle objects = Except.ok bs := by
  intro objects hno
  have h1 : reportPass (buildIndex objects) objects ([], []) =
      Except.ok ([], []) :=
    reportPass_skip objects ([], []) (fun o ho => (hno o ho).1)
  have h2 : relationshipPass (buildIndex objects) objects ([], []) =
      Except.ok ([], []) :=
    relationshipPass_skip objects ([], []) (fun o ho => (hno o ho).2)
  rcases @entityPass_total (buildIndex objects) objects
      (([], []) : SplitState) with ⟨s3, h3⟩
  exact ⟨s3.2, by simp [split_stix2_bundle, h1, h2, h3]⟩

/-- Witness for C3 (amended): a bundle of a single indicator whose
`created_by_ref` and `object_marking_refs` are all dangling splits
without raising. -/
theorem c3_amended_split_tolerates_dangling_embedded_witness :
    (∀ o ∈ [indicatorDangling],
      ¬ o.type = "report" ∧ ¬ o.type = "relationship") ∧
    ∃ bs, split_stix2_bundle [indicatorDangling] = Except.ok bs :=
  ⟨by decide,
   c3_amended_split_tolerates_dangling_embedded [indicatorDangling]
     (by decide)⟩

/-- Claim C1 (corrected, counterexample): the `cache_added` dedup set
only gates the roots of the relationship and remainder passes, not
closure members, so an already emitted object is re-emitted by a later
closure: in the bundle where the report references `identity--a` and
`indicator--b` names it as creator, `identity--a` appears in both
output sub-bundles (two of the two sub-bundles contain its id). -/
theorem c1_counterexample_duplicate_emission :
    split_stix2_bundle dupBundle =
      Except.ok [[reportOne, identityA], [indicatorB, identityA]] ∧
    (([[reportOne, identityA], [indicatorB, identityA]].filter
        (fun b => b.any (fun o => o.id == "identity--a"))).length = 2) :=
  ⟨rfl, by decide⟩

/-- Claim C1 (amended): when `split_stix2_bundle` succeeds on a bundle
with pairwise distinct ids, every object of the source bundle appears
in at least one output sub-bundle and no id occurs twice within a
single sub-bundle; but an object already emitted may be re-emitted in a
later sub-bundle when pulled in as a closure member, so an id may occur
in more than one sub-bundle. -/
theorem c1_amended_coverage_and_bundle_dedup :
    ∀ (objects : List StixObject) (bs : List (List StixObject)),
      (objects.map (fun o => o.id)).Nodup →
      split_stix2_bundle objects = Except.ok bs →
      (∀ o ∈ objects, ∃ b ∈ bs, o ∈ b) ∧
      (∀ b ∈ bs, (b.map (fun o => o.id)).Nodup) := by
  intro objects bs hnd h
  simp only [split_stix2_bundle] at h
  cases h1 : reportPass (buildIndex objects) objects ([], []) with
  | error e => rw [h1] at h; cases h
  | ok s1 =>
  rw [h1] at h
  simp only [exceptBind_ok] at h
  cases h2 : relationshipPass (buildIndex objects) objects s1 with
  | error e => rw [h2] at h; cases h
  | ok s2 =>
  rw [h2] at h
  simp only [exceptBind_ok] at h
  cases h3 : entityPass (buildIndex objects) objects s2 with
  | error e => rw [h3] at h; cases h
  | ok s3 =>
  rw [h3] at h
  simp only [exceptPure_eq] at h
  cases h
  rcases reportPass_spec objects ([], []) s1 h1 (fun _ hx => hx) with
    ⟨nbs1, r1, r2, _r3, r4, r5⟩
  simp only [List.nil_append] at r1 r2
  rcases relationshipPass_ok_id objects s1 s2 h2 with ⟨hs21, rcov⟩
  rw [hs21] at h3
  rcases entityPass_spec objects s1 s3 h3 (fun _ hx => hx) with
    ⟨nbs3, roots, e1, e2, _e3, _e4, _e5, e6, e7, e8, _e9⟩
  constructor
  · intro o ho
    have hid : o.id ∈ s3.1 := by
      by_cases hrel : o.type = "relationship"
      · have h0 : o.id ∈ s1.1 := rcov o ho hrel
        rw [e2]
        exact List.mem_append_left _ h0
      · exact e8 o ho hrel
    have hids : bundleIds s3.2 = s3.1 := by
      rw [e1, bundleIds_append, r1, ← r2, ← e2]
    have hid2 : o.id ∈ bundleIds s3.2 := hids ▸ hid
    rcases mem_bundleIds.mp hid2 with ⟨b, hb, x, hx, hxid⟩
    have hxobj : x ∈ objects := by
      rw [e1] at hb
      rcases List.mem_append.mp hb with hb | hb
      · rw [r1] at hb
        exact r5 b hb x hx
      · exact e7 b hb x hx
    have hxo : x = o := List.inj_on_of_nodup_map hnd hxobj ho hxid
    exact ⟨b, hb, hxo ▸ hx⟩
  · intro b hb
    rw [e1] at hb
    rcases List.mem_append.mp hb with hb | hb
    · rw [r1] at hb
      exact r4 b hb
    · exact e6 b hb

/-- Witness for C1 (amended): the coverage and per-bundle
deduplication statement applied to the relationship-free bundle
`{report G → entity A, entity B}`, which splits into
`[[G, A], [B]]`. -/
theorem c1_amended_coverage_and_bundle_dedup_witness :
    (okBundle.map (fun o => o.id)).Nodup ∧
    (∀ o ∈ okBundle, ∃ b ∈ [[reportG, entityA], [entityB]], o ∈ b) ∧
    (∀ b ∈ [[reportG, entityA], [entityB]],
      (b.map (fun o => o.id)).Nodup) :=
  ⟨by decide,
   c1_amended_coverage_and_bundle_dedup okBundle
     [[reportG, entityA], [entityB]] (by decide) rfl⟩

/-- Claim C8 (confirmed): when `split_stix2_bundle` returns, its output
is the report sub-bundles — one per report, in source order, each
headed by its report — followed by the relationship sub-bundles and
then the remainder sub-bundles; in every terminating run the
relationship pass emits nothing (each relationship id was already
emitted during the report pass, third conjunct), and the remainder
sub-bundles follow the `remainderSegment` selection discipline from the
ids emitted by the report pass: scanning the source in order, every
non-relationship, not-yet-emitted object contributes exactly one
sub-bundle, headed by it, and no other object contributes any (last
conjunct) — in particular those roots form a non-relationship sublist
of the source order heading the remainder sub-bundles. -/
theorem c8_output_order :
    ∀ (objects : List StixObject) (bs : List (List StixObject)),
      split_stix2_bundle objects = Except.ok bs →
      ∃ (reportBundles remainderBundles : List (List StixObject))
        (remainderRoots : List StixObject),
        bs = reportBundles ++ remainderBundles ∧
        reportBundles.map List.head? =
          (objects.filter (fun o => o.type == "report")).map some ∧
        (∀ o ∈ objects, o.type = "relationship" →
          o.id ∈ bundleIds reportBundles) ∧
        List.Sublist remainderRoots objects ∧
        (∀ r ∈ remainderRoots, ¬ r.type = "relationship") ∧
        remainderBundles.map List.head? = remainderRoots.map some ∧
        remainderSegment (bundleIds reportBundles) objects
          remainderBundles := by
  intro objects bs h
  simp only [split_stix2_bundle] at h
  cases h1 : reportPass (buildIndex objects) objects ([], []) with
  | error e => rw [h1] at h; cases h
  | ok s1 =>
  rw [h1] at h
  simp only [exceptBind_ok] at h
  cases h2 : relationshipPass (buildIndex objects) objects s1 with
  | error e => rw [h2] at h; cases h
  | ok s2 =>
  rw [h2] at h
  simp only [exceptBind_ok] at h
  cases h3 : entityPass (buildIndex objects) objects s2 with
  | error e => rw [h3] at h; cases h
  | ok s3 =>
  rw [h3] at h
  simp only [exceptPure_eq] at h
  cases h
  rcases reportPass_spec objects ([], []) s1 h1 (fun _ hx => hx) with
    ⟨nbs1, r1, r2, r3, _r4, _r5⟩
  simp only [List.nil_append] at r1 r2
  rcases relationshipPass_ok_id objects s1 s2 h2 with ⟨hs21, rcov⟩
  rw [hs21] at h3
  rcases entityPass_spec objects s1 s3 h3 (fun _ hx => hx) with
    ⟨nbs3, roots, e1, _e2, e3, e4, e5, _e6, _e7, _e8, e9⟩
  refine ⟨nbs1, nbs3, roots, ?_, r3, ?_, e3, e4, e5, ?_⟩
  · rw [e1, r1]
  · intro o ho hrel
    have h0 : o.id ∈ s1.1 := rcov o ho hrel
    rw [← r2]
    exact h0
  · rw [← r2]
    exact e9

/-- Witness for C8: the ordering statement applied to the bundle
`{report G → entity A, entity B}`, whose split is `[[G, A], [B]]`. -/
theorem c8_output_order_witness :
    ∃ (reportBundles remainderBundles : List (List StixObject))
      (remainderRoots : List StixObject),
      [[reportG, entityA], [entityB]] = reportBundles ++ remainderBundles ∧
      reportBundles.map List.head? =
        (okBundle.filter (fun o => o.type == "report")).map some ∧
      (∀ o ∈ okBundle, o.type = "relationship" →
        o.id ∈ bundleIds reportBundles) ∧
      List.Sublist remainderRoots okBundle ∧
      (∀ r ∈ remainderRoots, ¬ r.type = "relationship") ∧
      remainderBundles.map List.head? = remainderRoots.map some ∧
      remainderSegment (bundleIds reportBundles) okBundle
        remainderBundles :=
  c8_output_order okBundle [[reportG, entityA], [entityB]] rfl

/-- Witness for C5: the insensitivity statement applied to a concrete
heartbeat inserted between the two `data` events of the scenario. -/
theorem c5_stream_consumer_checkpoints_witness :
    ((SSEMsg.mk Option.none "heartbeat").event = "heartbeat" ∨
      (SSEMsg.mk Option.none "heartbeat").event = "connected") ∧
    listen_stream_consume (streamState0, [])
        ([msgData1, msgSync] ++ SSEMsg.mk Option.none "heartbeat" ::
          [msgData2]) =
      listen_stream_consume (streamState0, []) ([msgData1, msgSync] ++
        [msgData2]) :=
  ⟨Or.inl rfl,
   c5_stream_consumer_checkpoints.2.2 (SSEMsg.mk Option.none "heartbeat")
     (Or.inl rfl) [msgData1, msgSync] [msgData2] (streamState0, [])⟩

end Pycti
